import Mathlib

/-!
Verification of the PowerpointTextExtractor core.

A shallow embedding of the core of `src/powerpoint/` —
`text_processor.py`, `markdown_converter.py` and
`accessibility_extractor_v2.py` — together with theorems settling the
frozen claims about the natural-language specification.

Python strings are modelled as Lean `String`s (sequences of unicode code
points, matching Python's `len`/indexing granularity); Python's
substring / prefix tests are modelled on the underlying character lists.
Python `try/except` blocks around attribute access are modelled with
`Option` fields (`none` = attribute absent or access fails), and the one
`try/except` around slide-container-markup access is modelled with an
explicit variant (`SpTree.fault`).
-/

namespace PPTX

/-- Python `str.startswith(pre)` on strings, via the character lists. -/
def pyStartsWith (s pre : String) : Bool := decide (pre.data <+: s.data)

/-- Python `needle in hay` substring test, via the character lists. -/
def pyContains (hay needle : String) : Bool := decide (needle.data <:+: hay.data)

/-- Python `c in s` membership of a single character. -/
def pyHasChar (s : String) (c : Char) : Bool := decide (c ∈ s.data)

/-- Python `str.endswith(suf)`. -/
def pyEndsWith (s suf : String) : Bool := decide (suf.data <:+ s.data)

/-- Python `str.lower()` (ASCII-scope model). -/
def pyLower (s : String) : String := ⟨s.data.map Char.toLower⟩

/-- Strip whitespace from both ends of a character list (Python `str.strip()`,
ASCII-scope model of the whitespace class). -/
def listStrip (l : List Char) : List Char :=
  ((l.dropWhile Char.isWhitespace).reverse.dropWhile Char.isWhitespace).reverse

/-- Python `str.strip()`. -/
def pyStrip (s : String) : String := ⟨listStrip s.data⟩

/-- Python `str.isupper()` (ASCII-scope model): at least one cased character
and no lowercase character. -/
def pyIsUpper (s : String) : Bool :=
  (s.data.any fun c => c.isUpper || c.isLower) && (s.data.all fun c => !c.isLower)

/-- Embeds `TextProcessor._fix_url` (`src/powerpoint/text_processor.py`,
lines 237-250): add a `mailto:` prefix to addresses containing `@`, an
`https://` prefix to bare web domains, pass everything else through. -/
def fix_url (url : String) : String :=
  if url = "" then url
  else if pyHasChar url '@' && !(pyStartsWith url "mailto:") then "mailto:" ++ url
  else if !(pyStartsWith url "http://" || pyStartsWith url "https://" ||
            pyStartsWith url "mailto:" || pyStartsWith url "tel:" ||
            pyStartsWith url "ftp://" || pyStartsWith url "#") then
    if pyStartsWith url "www." ||
       ([".com", ".org", ".net", ".edu", ".gov", ".io"].any fun d =>
          pyContains (pyLower url) d) then
      "https://" ++ url
    else url
  else url

/-- The recognised-scheme test of `_fix_url`, named for reuse in statements. -/
def hasScheme (url : String) : Bool :=
  pyStartsWith url "http://" || pyStartsWith url "https://" ||
  pyStartsWith url "mailto:" || pyStartsWith url "tel:" ||
  pyStartsWith url "ftp://" || pyStartsWith url "#"

/-- The bare-web-domain test of `_fix_url`: starts with `www.` or mentions a
well-known top-level domain. -/
def looksLikeDomain (url : String) : Bool :=
  pyStartsWith url "www." ||
  ([".com", ".org", ".net", ".edu", ".gov", ".io"].any fun d =>
     pyContains (pyLower url) d)

/-- A text run of a paragraph (`python-pptx` run). `bold`/`italic` model the
truthiness of `run.font.bold` / `run.font.italic` (missing or falsy
attributes collapse to `false`, as in `_extract_run_formatting`);
`hyperlink_address` models `run.hyperlink.address` (`none` = absent). -/
structure Run where
  text : String
  bold : Bool
  italic : Bool
  hyperlink_address : Option String
deriving DecidableEq, Repr

/-- A paragraph as the processor reads it: `text` is `para.text`, `level` is
`getattr(para, 'level', None)`, `xml` is `str(para._p.xml)` (the raw markup
searched for bullet indicator substrings), `runs` is `para.runs`. -/
structure Paragraph where
  text : String
  level : Option Nat
  xml : String
  runs : List Run
deriving DecidableEq, Repr

/-- One formatted run of the output record. -/
structure FormattedRun where
  text : String
  bold : Bool
  italic : Bool
  hyperlink : Option String
deriving DecidableEq, Repr

/-- The `hints` sub-dict of a paragraph record. `likely_heading` is absent
from the dict built by `process_paragraph`; the renderer reads it with
`hints.get("likely_heading", False)`, so it is modelled as a field that
`process_paragraph` sets to `false`. -/
structure Hints where
  has_powerpoint_level : Bool
  powerpoint_level : Option Nat
  bullet_level : Int
  is_bullet : Bool
  is_numbered : Bool
  short_text : Bool
  all_caps : Bool
  likely_heading : Bool
deriving DecidableEq, Repr

/-- The structured record `process_paragraph` returns for one paragraph. -/
structure ParagraphRecord where
  raw_text : String
  clean_text : String
  formatted_runs : List FormattedRun
  hints : Hints
deriving DecidableEq, Repr

/-- The fixed set of leading bullet glyphs recognised by
`_remove_bullet_char`'s regex character class. -/
def bulletGlyphs : List Char :=
  ['•', '◦', '▪', '▫', '‣', '·', '○', '■', '□', '→', '►', '✓', '✗',
   '-', '*', '+', '※', '◆', '◇']

/-- Embeds `TextProcessor._remove_bullet_char` (lines 200-204): strip one
leading character from the recognised glyph set plus the whitespace that
follows it (`re.sub` of `^[glyphs]\s*`). -/
def remove_bullet_char (text : String) : String :=
  if text = "" then text
  else
    match text.data with
    | [] => text
    | c :: rest =>
      if bulletGlyphs.contains c then ⟨rest.dropWhile Char.isWhitespace⟩
      else text

/-- Markup-bullet detection of `_check_xml_bullet_formatting` (lines 92-110):
any of the indicator substrings `buChar`, `buAutoNum`, `buFont` occurs in the
paragraph's raw markup. -/
def xml_is_bullet (p : Paragraph) : Bool :=
  pyContains p.xml "buChar" || pyContains p.xml "buAutoNum" || pyContains p.xml "buFont"

/-- Decimal value of a digit run (the `int(...)` applied to the regex
capture). -/
def digitsToNat (l : List Char) : Nat :=
  l.foldl (fun acc c => acc * 10 + (c.toNat - '0'.toNat)) 0

/-- The first match of the regex `lvl="(\d+)"` in a character list: the
characters `lvl="`, then a maximal nonempty digit run, then `"`. -/
def find_lvl_match : List Char → Option Nat
  | [] => none
  | c :: rest =>
    let l := c :: rest
    if ("lvl=\x22".data <+: l) then
      let after := l.drop 5
      let digits := after.takeWhile Char.isDigit
      if digits ≠ [] && (after.drop digits.length).take 1 = ['\x22'] then
        some (digitsToNat digits)
      else find_lvl_match rest
    else find_lvl_match rest

/-- The extracted markup nesting level of `_check_xml_bullet_formatting`:
only looked for when a markup-bullet indicator was found. -/
def xml_bullet_level (p : Paragraph) : Option Nat :=
  if xml_is_bullet p then find_lvl_match p.xml.data else none

/-- Embeds `TextProcessor._is_numbered_from_xml` (lines 112-119). -/
def is_numbered_from_xml (p : Paragraph) : Bool := pyContains p.xml "buAutoNum"

/-- Embeds `TextProcessor._determine_bullet_level` (lines 121-130). -/
def determine_bullet_level (is_ppt_bullet : Bool) (xml_level ppt_level : Option Nat) : Int :=
  if is_ppt_bullet then
    match xml_level with
    | some n => (n : Int)
    | none => match ppt_level with
      | some n => (n : Int)
      | none => 0
  else match ppt_level with
    | some n => (n : Int)
    | none => -1

/-- Embeds `TextProcessor._extract_run_formatting` (lines 174-198) applied to
a run with an overriding text. The hyperlink is captured only when the
address is present and truthy, and is normalised with `_fix_url`. -/
def extract_run_formatting (r : Run) (text_override : String) : FormattedRun :=
  { text := text_override
    bold := r.bold
    italic := r.italic
    hyperlink := match r.hyperlink_address with
      | some a => if a = "" then none else some (fix_url a)
      | none => none }

/-- Embeds `TextProcessor._find_clean_text_start_position` (lines 167-172):
first index `i` of the concatenated run text at which the suffix, once
stripped, equals the clean text; `0` when no index matches. -/
def find_clean_text_start_position (full clean : List Char) : Nat :=
  go 0 full
where
  go : Nat → List Char → Nat
  | _, [] => 0
  | i, c :: rest => if listStrip (c :: rest) = clean then i else go (i + 1) rest

/-- The prefix-trimming loop of `_extract_runs_with_formatting`
(lines 139-159): walk the runs with a running character count, dropping runs
that end at or before `start_pos`, truncating the run that straddles it, and
keeping the rest whole; runs whose (possibly truncated) text is empty are not
emitted. -/
def slice_runs_from (runs : List Run) (start_pos : Nat) : List FormattedRun :=
  go 0 runs
where
  go : Nat → List Run → List FormattedRun
  | _, [] => []
  | char_count, r :: rest =>
    let run_end := char_count + r.text.length
    if run_end ≤ start_pos then go (char_count + r.text.length) rest
    else
      let run_text :=
        if char_count < start_pos ∧ start_pos < run_end then
          ⟨r.text.data.drop (start_pos - char_count)⟩
        else r.text
      (if run_text ≠ "" then [extract_run_formatting r run_text] else []) ++
        go (char_count + r.text.length) rest

/-- Embeds `TextProcessor._extract_runs_with_formatting` (lines 132-165). -/
def extract_runs_with_formatting (runs : List Run) (clean_text : String)
    (has_prefix_removed : Bool) : List FormattedRun :=
  if runs = [] then
    [{ text := clean_text, bold := false, italic := false, hyperlink := none }]
  else if has_prefix_removed then
    let full_text : List Char := (runs.map (fun r => r.text.data)).flatten
    slice_runs_from runs (find_clean_text_start_position full_text clean_text.data)
  else
    runs.filterMap fun r =>
      if r.text ≠ "" then some (extract_run_formatting r r.text) else none

/-- Embeds `TextProcessor.process_paragraph` (lines 58-90): `none` when the
paragraph's text is entirely whitespace, otherwise the structured record. -/
def process_paragraph (p : Paragraph) : Option ParagraphRecord :=
  if pyStrip p.text = "" then none
  else
    let ppt_level := p.level
    let is_ppt_bullet := xml_is_bullet p
    let xml_level := xml_bullet_level p
    let bullet_level := determine_bullet_level is_ppt_bullet xml_level ppt_level
    let clean_text :=
      if bullet_level ≥ 0 then remove_bullet_char (pyStrip p.text) else pyStrip p.text
    some
      { raw_text := p.text
        clean_text := clean_text
        formatted_runs := extract_runs_with_formatting p.runs clean_text (bullet_level ≥ 0)
        hints :=
          { has_powerpoint_level := ppt_level.isSome
            powerpoint_level := ppt_level
            bullet_level := bullet_level
            is_bullet := bullet_level ≥ 0
            is_numbered := is_numbered_from_xml p
            short_text := clean_text.length < 100
            all_caps := if clean_text ≠ "" then pyIsUpper clean_text else false
            likely_heading := false } }

/-! ## Markdown converter (`src/powerpoint/markdown_converter.py`) -/

/-- Python truthiness of an optional string (`None` and `""` are falsy). -/
def hyTruthy : Option String → Bool
  | some s => s ≠ ""
  | none => false

/-- Embeds `MarkdownConverter._build_formatted_text_from_runs` (lines
129-183): merge per-run bold/italic/hyperlink state into one decoration of
the clean text when the runs agree, otherwise concatenate per-run
decorations. -/
def build_formatted_text_from_runs (runs : List FormattedRun) (clean_text : String) :
    String :=
  if runs = [] then clean_text
  else
    let text_runs := runs.filter fun r => r.text ≠ ""
    if text_runs = [] then clean_text
    else
      let all_bold := text_runs.all (·.bold)
      let all_italic := text_runs.all (·.italic)
      let all_have_hyperlinks := text_runs.all fun r => hyTruthy r.hyperlink
      let all_same_hyperlink := all_have_hyperlinks &&
        (match text_runs with
         | [] => false
         | r0 :: rest => rest.all fun r => r.hyperlink == r0.hyperlink)
      if all_bold && all_italic && !all_same_hyperlink then "***" ++ clean_text ++ "***"
      else if all_bold && !all_same_hyperlink then "**" ++ clean_text ++ "**"
      else if all_italic && !all_same_hyperlink then "*" ++ clean_text ++ "*"
      else if all_same_hyperlink then
        let hyperlink :=
          match text_runs with
          | [] => ""
          | r0 :: _ => r0.hyperlink.getD ""
        if all_bold && all_italic then "[***" ++ clean_text ++ "***](" ++ hyperlink ++ ")"
        else if all_bold then "[**" ++ clean_text ++ "**](" ++ hyperlink ++ ")"
        else if all_italic then "[*" ++ clean_text ++ "*](" ++ hyperlink ++ ")"
        else "[" ++ clean_text ++ "](" ++ hyperlink ++ ")"
      else
        String.join (runs.map fun r =>
          if r.text = "" then ""
          else
            let t :=
              if r.bold && r.italic then "***" ++ r.text ++ "***"
              else if r.bold then "**" ++ r.text ++ "**"
              else if r.italic then "*" ++ r.text ++ "*"
              else r.text
            if hyTruthy r.hyperlink then "[" ++ t ++ "](" ++ r.hyperlink.getD "" ++ ")"
            else t)

/-- One chart series as the converter consumes it (`values` are already the
stringified cell values). -/
structure SeriesData where
  name : Option String
  values : List String

/-- A content block as the converter consumes it. `shapePlaceholder` is the
`"shape"` child kind that only group rendering understands. -/
inductive Block where
  | text (semantic_role : Option String) (paragraphs : List ParagraphRecord)
      (shape_hyperlink : Option String)
  | table (data : List (List String))
  | image (alt_text : String) (hyperlink : Option String)
  | chart (title : Option String) (chart_type : Option String) (categories : List String)
      (series : List SeriesData) (hyperlink : Option String)
  | group (extracted_blocks : List Block) (hyperlink : Option String)
  | shapePlaceholder (shape_subtype : Option String)

/-- Embeds `MarkdownConverter._convert_paragraph_to_markdown` (lines 71-94). -/
def convert_paragraph_to_markdown (para : ParagraphRecord) : String :=
  if para.clean_text = "" then ""
  else
    let formatted_text := build_formatted_text_from_runs para.formatted_runs para.clean_text
    if para.hints.is_bullet then
      String.join (List.replicate (max para.hints.bullet_level 0).toNat "  ") ++
        "- " ++ formatted_text
    else if para.hints.is_numbered then "1. " ++ formatted_text
    else if para.hints.likely_heading then
      if para.hints.all_caps || para.clean_text.length < 30 then "## " ++ formatted_text
      else "### " ++ formatted_text
    else formatted_text

/-- Embeds `MarkdownConverter._convert_text_block_to_markdown` (lines 39-69). -/
def convert_text_block_to_markdown (semantic_role : Option String)
    (paragraphs : List ParagraphRecord) (shape_hyperlink : Option String) : String :=
  let role := semantic_role.getD "other"
  let lines :=
    if role = "title" then
      paragraphs.filterMap fun para =>
        if para.clean_text ≠ "" then
          some ("# " ++ build_formatted_text_from_runs para.formatted_runs para.clean_text)
        else none
    else if role = "subtitle" then
      paragraphs.filterMap fun para =>
        if para.clean_text ≠ "" then
          some ("## " ++ build_formatted_text_from_runs para.formatted_runs para.clean_text)
        else none
    else
      paragraphs.filterMap fun para =>
        let line := convert_paragraph_to_markdown para
        if line ≠ "" then some line else none
  let result := String.intercalate "\n" lines
  if hyTruthy shape_hyperlink && result ≠ "" then
    "[" ++ result ++ "](" ++ shape_hyperlink.getD "" ++ ")"
  else result

/-- Embeds `MarkdownConverter._convert_table_to_markdown` (lines 185-197). -/
def convert_table_to_markdown (data : List (List String)) : String :=
  if data = [] then ""
  else
    String.join (data.enum.map fun ir =>
      let line := "| " ++
        String.intercalate " | " (ir.2.map fun cell => cell.replace "|" "\\|") ++ " |\n"
      if ir.1 = 0 then
        line ++ "| " ++ String.intercalate " | " (ir.2.map fun _ => "---") ++ " |\n"
      else line)

/-- Embeds `MarkdownConverter._convert_image_to_markdown` (lines 199-206). -/
def convert_image_to_markdown (alt_text : String) (hyperlink : Option String) : String :=
  let image_md := "![" ++ alt_text ++ "](image)"
  if hyTruthy hyperlink then "[" ++ image_md ++ "](" ++ hyperlink.getD "" ++ ")"
  else image_md

/-- Embeds `MarkdownConverter._convert_chart_to_markdown` (lines 208-227). -/
def convert_chart_to_markdown (title chart_type : Option String)
    (categories : List String) (series : List SeriesData)
    (hyperlink : Option String) : String :=
  let chart_md := "**Chart: " ++ title.getD "Untitled Chart" ++ "**\n" ++
    "*Chart Type: " ++ chart_type.getD "unknown" ++ "*\n\n"
  let chart_md :=
    if !categories.isEmpty && !series.isEmpty then
      chart_md ++ "Data:\n" ++ String.join (series.map fun sd =>
        if hyTruthy sd.name then
          "- " ++ sd.name.getD "" ++ ": " ++
            String.intercalate ", " (sd.values.take 5) ++
            (if sd.values.length > 5 then "..." else "") ++ "\n"
        else "")
    else chart_md
  if hyTruthy hyperlink then "[" ++ chart_md ++ "](" ++ hyperlink.getD "" ++ ")"
  else chart_md

/-- The per-child dispatch of `_convert_group_to_markdown` (lines 105-117):
text, image, table, chart and `"shape"` children render; a nested group child
is not recursed and yields nothing. -/
def convert_child_block_to_markdown : Block → Option String
  | .text role paras hl => some (convert_text_block_to_markdown role paras hl)
  | .image alt hl => some (convert_image_to_markdown alt hl)
  | .table data => some (convert_table_to_markdown data)
  | .chart t ct cats s hl => some (convert_chart_to_markdown t ct cats s hl)
  | .shapePlaceholder st => some ("[Shape: " ++ st.getD "unknown" ++ "]")
  | .group _ _ => none

/-- Embeds `MarkdownConverter._convert_group_to_markdown` (lines 96-127). -/
def convert_group_to_markdown (extracted_blocks : List Block)
    (hyperlink : Option String) : String :=
  if extracted_blocks.isEmpty then ""
  else
    let content_parts := extracted_blocks.filterMap fun b =>
      match convert_child_block_to_markdown b with
      | some c => if c ≠ "" then some c else none
      | none => none
    let group_md :=
      if content_parts ≠ [] then String.intercalate "\n\n" content_parts else ""
    if hyTruthy hyperlink && group_md ≠ "" then
      "[" ++ group_md ++ "](" ++ hyperlink.getD "" ++ ")"
    else group_md

/-- The per-block dispatch of `convert_structured_data_to_markdown`
(lines 20-35): an unrecognised block kind leaves `block_markdown = None`. -/
def convert_block_to_markdown : Block → Option String
  | .text role paras hl => some (convert_text_block_to_markdown role paras hl)
  | .table data => some (convert_table_to_markdown data)
  | .image alt hl => some (convert_image_to_markdown alt hl)
  | .chart t ct cats s hl => some (convert_chart_to_markdown t ct cats s hl)
  | .group bs hl => some (convert_group_to_markdown bs hl)
  | .shapePlaceholder _ => none

/-- One slide's structured data. -/
structure SlideData where
  slide_number : Nat
  content_blocks : List Block

/-- Whole-presentation structured data. -/
structure PresentationData where
  total_slides : Nat
  slides : List SlideData

/-- Embeds `MarkdownConverter.convert_structured_data_to_markdown`
(lines 13-37): slide markers and nonempty block renderings, joined with
blank lines. -/
def convert_structured_data_to_markdown (data : PresentationData) : String :=
  let markdown_parts := data.slides.flatMap fun slide =>
    ("\n<!-- Slide " ++ toString slide.slide_number ++ " -->\n") ::
      slide.content_blocks.filterMap fun block =>
        match convert_block_to_markdown block with
        | some md => if md ≠ "" then some md else none
        | none => none
  String.intercalate "\n\n" (markdown_parts.filter fun s => s ≠ "")

/-! ## Reading-order resolver (`src/powerpoint/accessibility_extractor_v2.py`) -/

/-- The shape kinds the extractor distinguishes (`MSO_SHAPE_TYPE` values it
compares against; everything else is `other`). -/
inductive ShapeKind where
  | group
  | picture
  | chart
  | table
  | other
deriving DecidableEq, Repr

/-- A slide shape. `ident` models `id(shape)` (unique per object within one
pass); `text` models the optional `shape.text` attribute (`none` = absent or
raising); `has_table`/`has_chart` model the truthiness of the corresponding
optional attributes; `children` is `shape.shapes` for a group; `xml_id`
models the stable numeric identity found in the element's `cNvPr`
sub-element (`get_xml_id(shape._element)`), `none` when unresolvable. -/
inductive Shape where
  | mk (ident : Nat) (name : String) (text : Option String) (has_table : Bool)
      (has_chart : Bool) (kind : ShapeKind) (children : List Shape)
      (xml_id : Option String)

def Shape.ident : Shape → Nat
  | .mk i _ _ _ _ _ _ _ => i

def Shape.name : Shape → String
  | .mk _ n _ _ _ _ _ _ => n

def Shape.text : Shape → Option String
  | .mk _ _ t _ _ _ _ _ => t

def Shape.has_table : Shape → Bool
  | .mk _ _ _ ht _ _ _ _ => ht

def Shape.has_chart : Shape → Bool
  | .mk _ _ _ _ hc _ _ _ => hc

def Shape.kind : Shape → ShapeKind
  | .mk _ _ _ _ _ k _ _ => k

def Shape.children : Shape → List Shape
  | .mk _ _ _ _ _ _ ch _ => ch

def Shape.xml_id : Shape → Option String
  | .mk _ _ _ _ _ _ _ x => x

/-- Embeds `_expand_all_groups_recursively` (lines 110-124): pre-order,
depth-first replacement of every group by its recursively expanded
children. -/
def expand_all_groups_recursively : List Shape → List Shape
  | [] => []
  | Shape.mk i n t ht hc k ch x :: rest =>
    (if k = ShapeKind.group then expand_all_groups_recursively ch
     else [Shape.mk i n t ht hc k ch x]) ++
      expand_all_groups_recursively rest

/-- The loop body of `_deduplicate_shapes_by_object_id` (lines 207-220) with
its `seen_ids` accumulator explicit. -/
def dedup_go : List Nat → List Shape → List Shape
  | _, [] => []
  | seen, s :: rest =>
    if seen.contains s.ident then dedup_go seen rest
    else s :: dedup_go (s.ident :: seen) rest

/-- Embeds `_deduplicate_shapes_by_object_id`: keep the first occurrence of
each object identity. -/
def deduplicate_shapes_by_object_id (shapes : List Shape) : List Shape :=
  dedup_go [] shapes

/-- One child element of the slide's `spTree` container markup, reduced to
what `_get_xml_document_order_deduplicated` reads from it: its tag and the
`cNvPr` id that `get_xml_id` recovers (`none` when absent or faulting). -/
structure XmlElem where
  tag : String
  cNvPr_id : Option String

/-- The outcome of reading the slide's shape-container markup: the access
itself may raise (`fault`), the `spTree` element may be missing (`missing`),
or its child elements are available in document order. -/
inductive SpTree where
  | fault
  | missing
  | found (children : List XmlElem)

/-- A slide: its native flat shape collection (`slide.shapes`) and its
container markup. -/
structure Slide where
  shapes : List Shape
  sp_tree : SpTree

/-- The recognised element kinds of `_get_xml_document_order_deduplicated`
(lines 176-179): tags ending in `}sp`, `}grpSp`, `}pic`, `}cxnSp`,
`}graphicFrame`. -/
def recognized_tag (e : XmlElem) : Bool :=
  pyEndsWith e.tag "\x7dsp" || pyEndsWith e.tag "\x7dgrpSp" ||
  pyEndsWith e.tag "\x7dpic" || pyEndsWith e.tag "\x7dcxnSp" ||
  pyEndsWith e.tag "\x7dgraphicFrame"

/-- The `id_to_shape_map` lookup (lines 190-194): the map is built by a loop
whose later assignments overwrite earlier ones, so a key resolves to the
last shape carrying it. -/
def id_to_shape_lookup (shapes : List Shape) (k : String) : Option Shape :=
  (shapes.filter fun s => s.xml_id = some k).getLast?

/-- Embeds `_get_xml_document_order_deduplicated` (lines 163-205): shapes in
container-markup document order, resolved by `cNvPr` identity and
deduplicated; on a missing `spTree` or any fault, the deduplicated native
collection. -/
def get_xml_document_order_deduplicated (slide : Slide) : List Shape :=
  match slide.sp_tree with
  | .fault => deduplicate_shapes_by_object_id slide.shapes
  | .missing => deduplicate_shapes_by_object_id slide.shapes
  | .found children =>
    deduplicate_shapes_by_object_id
      ((children.filter recognized_tag).filterMap fun e =>
        e.cNvPr_id.bind (id_to_shape_lookup slide.shapes))

/-- The `text_preview` computation of the bucketing loop (lines 85-90):
the stripped shape text, `""` when the attribute is absent, falsy or
raising. -/
def shape_text_preview (s : Shape) : String :=
  match s.text with
  | some t => if t ≠ "" then pyStrip t else ""
  | none => ""

/-- The role computed by the branch conditions of the bucketing loop of
`_get_semantic_accessibility_order` (lines 92-104). -/
def classify_bucket (s : Shape) : String :=
  if pyContains (pyLower s.name) "title" && !(pyContains (pyLower s.name) "subtitle") then
    "title"
  else if pyContains (pyLower s.name) "slide number" then "slide_number"
  else if shape_text_preview s ≠ "" || s.has_table || s.has_chart then "content"
  else "other"

/-- The bucketing loop of `_get_semantic_accessibility_order` (lines 77-106):
one pass that appends each shape to the bucket its branch selects (the
`slide_number` branch appends to none) and records the branch's role in the
classification map. -/
def semantic_buckets :
    List Shape → List Shape × List Shape × List Shape × List (Nat × String)
  | [] => ([], [], [], [])
  | s :: rest =>
    let r := semantic_buckets rest
    if pyContains (pyLower s.name) "title" && !(pyContains (pyLower s.name) "subtitle") then
      (s :: r.1, r.2.1, r.2.2.1, (s.ident, "title") :: r.2.2.2)
    else if pyContains (pyLower s.name) "slide number" then
      (r.1, r.2.1, r.2.2.1, (s.ident, "slide_number") :: r.2.2.2)
    else if shape_text_preview s ≠ "" || s.has_table || s.has_chart then
      (r.1, s :: r.2.1, r.2.2.1, (s.ident, "content") :: r.2.2.2)
    else
      (r.1, r.2.1, s :: r.2.2.1, (s.ident, "other") :: r.2.2.2)

/-- The group-expansion step of `_get_semantic_accessibility_order`
(lines 67-73) applied to one XML-ordered shape. -/
def expand_if_group (s : Shape) : List Shape :=
  if s.kind = ShapeKind.group then expand_all_groups_recursively [s] else [s]

/-- The deduplicated, group-expanded document order that
`_get_semantic_accessibility_order` buckets (lines 65-75). -/
def deduplicated_document_order (slide : Slide) : List Shape :=
  deduplicate_shapes_by_object_id
    ((get_xml_document_order_deduplicated slide).flatMap expand_if_group)

/-- Embeds `_get_semantic_accessibility_order` (lines 61-108): returns the
concatenated buckets and the classification map it stores in
`self.shape_classifications`. -/
def get_semantic_accessibility_order (slide : Slide) :
    List Shape × List (Nat × String) :=
  let r := semantic_buckets (deduplicated_document_order slide)
  (r.1 ++ r.2.1 ++ r.2.2.1, r.2.2.2)

/-- The shape-kind tail of `_get_semantic_role_from_xml` (lines 152-156). -/
def kind_role (s : Shape) : String :=
  if s.kind = ShapeKind.picture || s.kind = ShapeKind.chart then "content"
  else if s.kind = ShapeKind.table then "content"
  else "other"

/-- Embeds the fallback per-shape classifier `_get_semantic_role_from_xml`
(lines 126-161). -/
def get_semantic_role_from_xml (s : Shape) : String :=
  if pyContains (pyLower s.name) "title" && !(pyContains (pyLower s.name) "subtitle") then
    "title"
  else if pyContains (pyLower s.name) "subtitle" ||
      pyContains (pyLower s.name) "sub-title" then "subtitle"
  else if pyContains (pyLower s.name) "slide number" then "slide_number"
  else
    match s.text with
    | some t =>
      if t ≠ "" then
        if (pyStrip (pyLower t)).length < 100 &&
            (pyContains (pyStrip (pyLower t)) "title" ||
             pyContains (pyStrip (pyLower t)) "heading" ||
             pyContains (pyStrip (pyLower t)) "header") then "title"
        else if pyContains (pyStrip (pyLower t)) "subtitle" ||
            pyContains (pyStrip (pyLower t)) "subheading" ||
            pyContains (pyStrip (pyLower t)) "sub-title" then "subtitle"
        else if (pyStrip (pyLower t)).length > 10 then "content"
        else "other"
      else kind_role s
    | none => kind_role s

/-- The per-instance classification cache `self.shape_classifications`,
keyed by shape identity. -/
abbrev ClassMap := List (Nat × String)

/-- Models `id(shape) in self.shape_classifications` followed by indexing. -/
def class_lookup (m : ClassMap) (k : Nat) : Option String :=
  (m.find? fun p => p.1 == k).map (·.2)

/-- Embeds `get_slide_reading_order` (lines 34-59) with the instance state
(the classification cache) made explicit: returns the updated cache and the
`(shape, role)` list. The semantic strategy overwrites the cache with the
bucketing pass's map before roles are read; the simple strategy leaves the
cache untouched. -/
def get_slide_reading_order (accessibility_order : Bool) (st : ClassMap)
    (slide : Slide) : ClassMap × List (Shape × String) :=
  if accessibility_order then
    let r := get_semantic_accessibility_order slide
    (r.2, r.1.map fun s =>
      (s, match class_lookup r.2 s.ident with
          | some role => role
          | none => get_semantic_role_from_xml s))
  else
    (st, (expand_all_groups_recursively slide.shapes).map fun s =>
      (s, match class_lookup st s.ident with
          | some role => role
          | none => get_semantic_role_from_xml s))

/-- A paragraph whose whole text is a single bullet glyph, carrying a
markup-bullet indicator: the glyph survives the whitespace-only check but is
then stripped entirely. -/
def bulletOnlyPara : Paragraph :=
  { text := "•", level := none, xml := "<a:pPr><a:buChar/></a:pPr>", runs := [] }

/-- Witness for C3 on a plain non-bullet paragraph. -/
def plainPara : Paragraph := { text := "hello", level := none, xml := "", runs := [] }

/-- The record `process_paragraph` produces for `plainPara`. -/
def plainParaRec : ParagraphRecord :=
  { raw_text := "hello", clean_text := "hello",
    formatted_runs := [{ text := "hello", bold := false, italic := false, hyperlink := none }],
    hints := { has_powerpoint_level := false, powerpoint_level := none, bullet_level := -1,
               is_bullet := false, is_numbered := false, short_text := true,
               all_caps := false, likely_heading := false } }

/-- Witness for C5 on the specification's example: a bullet-glyph paragraph
with a marker present and no explicit level attribute. -/
def bulletItemPara : Paragraph :=
  { text := "• Item one", level := none, xml := "<a:pPr><a:buChar/></a:pPr>",
    runs := [{ text := "• Item one", bold := false, italic := false,
               hyperlink_address := none }] }

/-- The record `process_paragraph` produces for `bulletItemPara`: the glyph
and its following space are stripped from the clean text, and the straddling
run is truncated at the recovered offset. -/
def bulletItemRec : ParagraphRecord :=
  { raw_text := "• Item one", clean_text := "Item one",
    formatted_runs := [{ text := " Item one", bold := false, italic := false,
                         hyperlink := none }],
    hints := { has_powerpoint_level := false, powerpoint_level := none, bullet_level := 0,
               is_bullet := true, is_numbered := false, short_text := true,
               all_caps := false, likely_heading := false } }

/-- Witness for C10. -/
def noRunsPara : Paragraph := { text := "plain text", level := none, xml := "", runs := [] }

/-- The record `process_paragraph` produces for `noRunsPara`. -/
def noRunsRec : ParagraphRecord :=
  { raw_text := "plain text", clean_text := "plain text",
    formatted_runs := [{ text := "plain text", bold := false, italic := false,
                         hyperlink := none }],
    hints := { has_powerpoint_level := false, powerpoint_level := none, bullet_level := -1,
               is_bullet := false, is_numbered := false, short_text := true,
               all_caps := false, likely_heading := false } }

/-- Witness for C6 on the specification's example: two bold runs, no
hyperlink, merged into one double-emphasis wrap. -/
def helloWorldRuns : List FormattedRun :=
  [{ text := "Hello ", bold := true, italic := false, hyperlink := none },
   { text := "World", bold := true, italic := false, hyperlink := none }]

/-- C1 counterexample input: a slide whose only shape is named
"Slide Number Placeholder 3" (and has text), reached through the markup
fallback path. -/
def slideNumberShape : Shape :=
  Shape.mk 1 "Slide Number Placeholder 3" (some "7") false false ShapeKind.other [] none

def slideNumberSlide : Slide := { shapes := [slideNumberShape], sp_tree := SpTree.missing }

/-- Witness for C1 on a slide with one content shape. -/
def c1ContentShape : Shape :=
  Shape.mk 5 "Body 1" (some "some words here") false false ShapeKind.other [] none

def c1ContentSlide : Slide := { shapes := [c1ContentShape], sp_tree := SpTree.missing }

/-- C2 counterexample input: markup access faults on a slide holding a
subtitle-named shape followed by a title-named shape. -/
def c2SubtitleShape : Shape :=
  Shape.mk 1 "Subtitle 9" (some "hi there everyone") false false ShapeKind.other [] none

def c2TitleShape : Shape :=
  Shape.mk 2 "Title 1" (some "greetings") false false ShapeKind.other [] none

def c2FaultSlide : Slide :=
  { shapes := [c2SubtitleShape, c2TitleShape], sp_tree := SpTree.fault }

/-- Witness for C2's amended theorem at the same concrete faulting slide. -/
def c2wShape : Shape :=
  Shape.mk 3 "Content Placeholder" (some "body text here") false false
    ShapeKind.other [] none

def c2wSlide : Slide := { shapes := [c2wShape], sp_tree := SpTree.fault }

/-- C4 counterexample input: a shape named "Subtitle 1" with text. -/
def c4SubShape : Shape :=
  Shape.mk 1 "Subtitle 1" (some "hello world") false false ShapeKind.other [] none

def c4SubSlide : Slide := { shapes := [c4SubShape], sp_tree := SpTree.missing }

/-- Witness for C4's amended theorem. -/
def c4wShape : Shape :=
  Shape.mk 7 "Subtitle 2" (some "a subtitle line") false false ShapeKind.other [] none

def c4wSlide : Slide := { shapes := [c4wShape], sp_tree := SpTree.missing }

/-- Witness input for C4's sub-title case: a name containing "sub-title"
but not "subtitle". -/
def c4wSubTitleShape : Shape :=
  Shape.mk 8 "Sub-title 1" (some "another line") false false ShapeKind.other [] none

def c4wSubTitleSlide : Slide :=
  { shapes := [c4wSubTitleShape], sp_tree := SpTree.missing }

/-- Embeds `PowerPointProcessor.extract_slide_data`
(`src/powerpoint/powerpoint_processor.py`, lines 57-78) with the resolver
cache threaded explicitly. The shape-content extractor
(`ContentExtractor.extract_shape_content`) lives outside the modelled core,
so it is a parameter: any function from a shape and its role to an optional
content block. -/
def extract_slide_data (extract : Shape → String → Option Block) (flag : Bool)
    (st : ClassMap) (slide : Slide) (n : Nat) : ClassMap × SlideData :=
  let r := get_slide_reading_order flag st slide
  (r.1, ⟨n, r.2.filterMap fun p => extract p.1 p.2⟩)

/-- The slide loop of `extract_presentation_data` (lines 133-144),
threading the resolver cache slide to slide with 1-based numbering. -/
def extract_slides (extract : Shape → String → Option Block) (flag : Bool) :
    ClassMap → Nat → List Slide → ClassMap × List SlideData
  | st, _, [] => (st, [])
  | st, n, slide :: rest =>
    let r1 := extract_slide_data extract flag st slide n
    let r2 := extract_slides extract flag r1.1 (n + 1) rest
    (r2.1, r1.2 :: r2.2)

/-- Embeds `extract_presentation_data`. -/
def extract_presentation_data (extract : Shape → String → Option Block)
    (flag : Bool) (st : ClassMap) (slides : List Slide) :
    ClassMap × PresentationData :=
  let r := extract_slides extract flag st 1 slides
  (r.1, ⟨slides.length, r.2⟩)

/-- The structured-data-to-markdown leg of
`_sophisticated_xml_processing` (lines 98-113): resolve every slide's
reading order, extract content blocks, render markdown; returns the
resolver cache left behind for the next call on the same instance. -/
def convert_pipeline (extract : Shape → String → Option Block) (flag : Bool)
    (st : ClassMap) (slides : List Slide) : ClassMap × String :=
  let r := extract_presentation_data extract flag st slides
  (r.1, convert_structured_data_to_markdown r.2)

theorem fix_url_eq (url : String) :
    fix_url url =
      if url = "" then url
      else if pyHasChar url '@' && !(pyStartsWith url "mailto:") then "mailto:" ++ url
      else if !(hasScheme url) then
        if looksLikeDomain url then "https://" ++ url else url
      else url := by
  simp [fix_url, hasScheme, looksLikeDomain]

theorem data_append (a b : String) : (a ++ b).data = a.data ++ b.data := by
  cases a; cases b; rfl

theorem append_ne_empty_left (a b : String) (h : a.data ≠ []) : a ++ b ≠ "" := by
  intro hcontra
  have h2 : (a ++ b).data = ([] : List Char) := by rw [hcontra]
  rw [data_append, List.append_eq_nil] at h2
  exact h h2.1

theorem pyStartsWith_append_self (p u : String) : pyStartsWith (p ++ u) p = true := by
  simp [pyStartsWith, data_append]

theorem pyHasChar_append (a b : String) (c : Char) :
    pyHasChar (a ++ b) c = (pyHasChar a c || pyHasChar b c) := by
  simp [pyHasChar, data_append, List.mem_append]

theorem mailto_branch_not_taken {u : String}
    (hAt : (pyHasChar u '@' && !(pyStartsWith u "mailto:")) = false) :
    pyHasChar u '@' = false ∨ pyStartsWith u "mailto:" = true := by
  cases hA : pyHasChar u '@' with
  | false => exact Or.inl rfl
  | true =>
    cases hM : pyStartsWith u "mailto:" with
    | true => exact Or.inr rfl
    | false =>
      rw [hA, hM] at hAt
      exact absurd hAt (by decide)

/-- Inversion for `process_paragraph`: a produced record is exactly the
record built in the else-branch, and the paragraph text is not entirely
whitespace. -/
theorem process_paragraph_inv (p : Paragraph) (rec : ParagraphRecord)
    (h : process_paragraph p = some rec) :
    pyStrip p.text ≠ "" ∧
    rec =
      { raw_text := p.text
        clean_text :=
          if determine_bullet_level (xml_is_bullet p) (xml_bullet_level p) p.level ≥ 0 then
            remove_bullet_char (pyStrip p.text)
          else pyStrip p.text
        formatted_runs :=
          extract_runs_with_formatting p.runs
            (if determine_bullet_level (xml_is_bullet p) (xml_bullet_level p) p.level ≥ 0 then
              remove_bullet_char (pyStrip p.text)
            else pyStrip p.text)
            (determine_bullet_level (xml_is_bullet p) (xml_bullet_level p) p.level ≥ 0)
        hints :=
          { has_powerpoint_level := p.level.isSome
            powerpoint_level := p.level
            bullet_level := determine_bullet_level (xml_is_bullet p) (xml_bullet_level p) p.level
            is_bullet := determine_bullet_level (xml_is_bullet p) (xml_bullet_level p) p.level ≥ 0
            is_numbered := is_numbered_from_xml p
            short_text :=
              (if determine_bullet_level (xml_is_bullet p) (xml_bullet_level p) p.level ≥ 0 then
                remove_bullet_char (pyStrip p.text)
              else pyStrip p.text).length < 100
            all_caps :=
              if (if determine_bullet_level (xml_is_bullet p) (xml_bullet_level p) p.level ≥ 0 then
                   remove_bullet_char (pyStrip p.text)
                  else pyStrip p.text) ≠ "" then
                pyIsUpper
                  (if determine_bullet_level (xml_is_bullet p) (xml_bullet_level p) p.level ≥ 0 then
                    remove_bullet_char (pyStrip p.text)
                  else pyStrip p.text)
              else false
            likely_heading := false } } := by
  rw [process_paragraph] at h
  split at h
  · exact absurd h (by simp)
  · rename_i hne
    injection h with h
    exact ⟨hne, h.symm⟩

/-- The bucketing loop computes exactly the three `classify_bucket` filters
of its input (in input order) and the identity-keyed classification map. -/
theorem semantic_buckets_eq (d : List Shape) :
    semantic_buckets d =
      (d.filter fun s => classify_bucket s = "title",
       d.filter fun s => classify_bucket s = "content",
       d.filter fun s => classify_bucket s = "other",
       d.map fun s => (s.ident, classify_bucket s)) := by
  induction d with
  | nil => rfl
  | cons s rest ih =>
    by_cases h1 : (pyContains (pyLower s.name) "title" &&
        !(pyContains (pyLower s.name) "subtitle")) = true
    · have hc : classify_bucket s = "title" := by rw [classify_bucket, if_pos h1]
      simp only [semantic_buckets, ih]
      rw [if_pos h1]
      simp [hc, List.filter_cons]
    · by_cases h2 : pyContains (pyLower s.name) "slide number" = true
      · have hc : classify_bucket s = "slide_number" := by
          rw [classify_bucket, if_neg h1, if_pos h2]
        simp only [semantic_buckets, ih]
        rw [if_neg h1, if_pos h2]
        simp [hc, List.filter_cons]
      · by_cases h3 : (decide (shape_text_preview s ≠ "") || s.has_table ||
            s.has_chart) = true
        · have hc : classify_bucket s = "content" := by
            rw [classify_bucket, if_neg h1, if_neg h2, if_pos h3]
          simp only [semantic_buckets, ih]
          rw [if_neg h1, if_neg h2, if_pos h3]
          simp [hc, List.filter_cons]
        · have hc : classify_bucket s = "other" := by
            rw [classify_bucket, if_neg h1, if_neg h2, if_neg h3]
          simp only [semantic_buckets, ih]
          rw [if_neg h1, if_neg h2, if_neg h3]
          simp [hc, List.filter_cons]

/-- Shapes surviving deduplication never carry an identity from the
already-seen accumulator. -/
theorem mem_dedup_go_not_seen :
    ∀ {seen : List Nat} {l : List Shape} {s : Shape}, s ∈ dedup_go seen l →
      seen.contains s.ident = false := by
  intro seen l
  induction l generalizing seen with
  | nil => intro s hs; exact absurd hs (by simp [dedup_go])
  | cons a rest ih =>
    intro s hs
    rw [dedup_go] at hs
    by_cases hc : seen.contains a.ident = true
    · rw [if_pos hc] at hs
      exact ih hs
    · rw [if_neg hc] at hs
      rcases List.mem_cons.mp hs with rfl | hs'
      · exact Bool.eq_false_iff.mpr hc
      · have h2 := ih hs'
        rw [List.contains_cons] at h2
        exact (Bool.or_eq_false_iff.mp h2).2

/-- In a deduplicated list, the number of members sharing a member's
identity and satisfying `q` is `1` or `0` according to `q` at that member. -/
theorem countP_dedup_go (q : Shape → Bool) :
    ∀ (seen : List Nat) (l : List Shape) (s : Shape), s ∈ dedup_go seen l →
      (dedup_go seen l).countP (fun x => x.ident == s.ident && q x) =
        if q s then 1 else 0 := by
  intro seen l
  induction l generalizing seen with
  | nil => intro s hs; exact absurd hs (by simp [dedup_go])
  | cons a rest ih =>
    intro s hs
    rw [dedup_go] at hs ⊢
    by_cases hc : seen.contains a.ident = true
    · rw [if_pos hc] at hs ⊢
      exact ih seen s hs
    · rw [if_neg hc] at hs ⊢
      rcases List.mem_cons.mp hs with rfl | hs'
      · rw [List.countP_cons]
        have hzero : (dedup_go (s.ident :: seen) rest).countP
            (fun x => x.ident == s.ident && q x) = 0 := by
          refine List.countP_eq_zero.mpr fun x hx => ?_
          have h2 := mem_dedup_go_not_seen hx
          rw [List.contains_cons] at h2
          have h3 := (Bool.or_eq_false_iff.mp h2).1
          simp only [Bool.and_eq_true, beq_iff_eq]
          rintro ⟨he, _⟩
          rw [he] at h3
          simp at h3
        rw [hzero]
        simp
      · have hne : (a.ident == s.ident) = false := by
          have h2 := mem_dedup_go_not_seen hs'
          rw [List.contains_cons] at h2
          have h3 := (Bool.or_eq_false_iff.mp h2).1
          rw [beq_eq_false_iff_ne] at h3 ⊢
          exact fun he => h3 he.symm
        rw [List.countP_cons]
        simp only [hne, Bool.false_and, if_false]
        exact ih (a.ident :: seen) s hs'

/-- Looking a surviving shape's identity up in the classification map built
over the deduplicated list yields that shape's own entry. -/
theorem class_lookup_dedup_map (f : Shape → String) :
    ∀ (seen : List Nat) (l : List Shape) (s : Shape), s ∈ dedup_go seen l →
      class_lookup ((dedup_go seen l).map fun x => (x.ident, f x)) s.ident =
        some (f s) := by
  intro seen l
  induction l generalizing seen with
  | nil => intro s hs; exact absurd hs (by simp [dedup_go])
  | cons a rest ih =>
    intro s hs
    rw [dedup_go] at hs ⊢
    by_cases hc : seen.contains a.ident = true
    · rw [if_pos hc] at hs ⊢
      exact ih seen s hs
    · rw [if_neg hc] at hs ⊢
      rcases List.mem_cons.mp hs with rfl | hs'
      · simp [class_lookup]
      · have hne : (a.ident == s.ident) = false := by
          have h2 := mem_dedup_go_not_seen hs'
          rw [List.contains_cons] at h2
          have h3 := (Bool.or_eq_false_iff.mp h2).1
          rw [beq_eq_false_iff_ne] at h3 ⊢
          exact fun he => h3 he.symm
        rw [List.map_cons, class_lookup, List.find?_cons_of_neg _ (by simp [hne])]
        exact ih (a.ident :: seen) s hs'

/-- The semantic order's output is the three bucket filters of the
deduplicated document order in sequence, and its classification map pairs
each deduplicated shape's identity with its bucket role. -/
theorem semantic_order_characterization (slide : Slide) :
    (get_semantic_accessibility_order slide).1 =
      (deduplicated_document_order slide).filter
          (fun s => classify_bucket s = "title") ++
        (deduplicated_document_order slide).filter
          (fun s => classify_bucket s = "content") ++
        (deduplicated_document_order slide).filter
          (fun s => classify_bucket s = "other") ∧
    (get_semantic_accessibility_order slide).2 =
      (deduplicated_document_order slide).map fun s => (s.ident, classify_bucket s) := by
  rw [get_semantic_accessibility_order, semantic_buckets_eq]
  exact ⟨rfl, rfl⟩

/-- The bucketing branch conditions yield exactly one of the four roles. -/
theorem classify_bucket_cases (s : Shape) :
    classify_bucket s = "title" ∨ classify_bucket s = "slide_number" ∨
      classify_bucket s = "content" ∨ classify_bucket s = "other" := by
  rw [classify_bucket]
  split_ifs <;> simp

/-- The bucketing branch conditions never yield the subtitle role. -/
theorem classify_bucket_ne_subtitle (s : Shape) : classify_bucket s ≠ "subtitle" := by
  rw [classify_bucket]
  split_ifs <;> decide

/-- C7: URL normalization cases of `_fix_url`: a value containing `@` without a
`mailto:` prefix is prefixed with `mailto:`; a value with no recognized scheme
that looks like a bare web domain is prefixed with `https://`; every other
value is returned unchanged. -/
theorem url_normalization_cases (u : String) :
    (pyHasChar u '@' = true ∧ pyStartsWith u "mailto:" = false →
        fix_url u = "mailto:" ++ u) ∧
    (pyHasChar u '@' = false ∧ hasScheme u = false ∧ looksLikeDomain u = true →
        fix_url u = "https://" ++ u) ∧
    ((pyHasChar u '@' = false ∨ pyStartsWith u "mailto:" = true) ∧
        (hasScheme u = true ∨ looksLikeDomain u = false) →
        fix_url u = u) := by
  rw [fix_url_eq]
  refine ⟨?_, ?_, ?_⟩
  · rintro ⟨h1, h2⟩
    have hu : ¬(u = "") := fun he => by subst he; exact absurd h1 (by decide)
    simp [hu, h1, h2]
  · rintro ⟨h1, h2, h3⟩
    have hu : ¬(u = "") := fun he => by subst he; exact absurd h3 (by decide)
    simp [hu, h1, h2, h3]
  · rintro ⟨h1, h2⟩
    by_cases hu : u = ""
    · simp [hu]
    · rcases h1 with ha | hm
      · rcases h2 with hs | hd
        · simp [hu, ha, hs]
        · simp [hu, ha, hd]
      · have hs : hasScheme u = true := by simp [hasScheme, hm]
        have ha' : (pyHasChar u '@' && !(pyStartsWith u "mailto:")) = false := by
          simp [hm]
        simp [hu, ha', hs]

/-- Witness for C7 at the three inputs named by the specification. -/
theorem url_normalization_cases_witness :
    fix_url "user@example.com" = "mailto:" ++ "user@example.com" ∧
    fix_url "www.example.com" = "https://" ++ "www.example.com" ∧
    fix_url "https://x.com" = "https://x.com" :=
  ⟨(url_normalization_cases "user@example.com").1 ⟨by decide, by decide⟩,
   (url_normalization_cases "www.example.com").2.1 ⟨by decide, by decide, by decide⟩,
   (url_normalization_cases "https://x.com").2.2
     ⟨Or.inl (by decide), Or.inl (by decide)⟩⟩

/-- C9: `_fix_url` is idempotent — every prefix it adds is itself a
recognized scheme on the second pass. -/
theorem fix_url_idempotent (u : String) : fix_url (fix_url u) = fix_url u := by
  by_cases h0 : u = ""
  · subst h0; rfl
  · rw [fix_url_eq u]
    cases hAt : (pyHasChar u '@' && !(pyStartsWith u "mailto:")) with
    | true =>
      simp [h0, hAt]
      exact (url_normalization_cases _).2.2
        ⟨Or.inr (pyStartsWith_append_self "mailto:" u),
         Or.inl (by simp [hasScheme, pyStartsWith_append_self])⟩
    | false =>
      cases hS : hasScheme u with
      | true =>
        simp [h0, hAt, hS]
        exact (url_normalization_cases u).2.2 ⟨mailto_branch_not_taken hAt, Or.inl hS⟩
      | false =>
        cases hD : looksLikeDomain u with
        | false =>
          simp [h0, hAt, hS, hD]
          exact (url_normalization_cases u).2.2 ⟨mailto_branch_not_taken hAt, Or.inr hD⟩
        | true =>
          simp [h0, hAt, hS, hD]
          have hm : pyStartsWith u "mailto:" = false := by
            cases hm2 : pyStartsWith u "mailto:" with
            | false => rfl
            | true =>
              have ht : hasScheme u = true := by simp [hasScheme, hm2]
              rw [ht] at hS
              exact absurd hS (by decide)
          have hAt' : pyHasChar u '@' = false := by
            rcases mailto_branch_not_taken hAt with h | h
            · exact h
            · rw [h] at hm; exact absurd hm (by decide)
          refine (url_normalization_cases _).2.2
            ⟨Or.inl ?_, Or.inl (by simp [hasScheme, pyStartsWith_append_self])⟩
          rw [pyHasChar_append, hAt']
          decide

/-- C3 counterexample: `process_paragraph` does produce a record whose
`clean_text` is the empty string, on a paragraph whose trimmed text is a lone
bullet glyph with a markup-bullet indicator present. -/
theorem empty_clean_text_produced :
    (process_paragraph bulletOnlyPara).map ParagraphRecord.clean_text = some "" := by
  decide

/-- C3 (amended): paragraphs whose text is entirely whitespace are dropped,
and every produced record has non-empty `clean_text` unless a leading bullet
glyph was stripped: a record with empty `clean_text` can arise only with
`is_bullet = true`, when the bullet-glyph stripping removed the whole trimmed
text. -/
theorem clean_text_nonempty_unless_bullet_stripped (p : Paragraph)
    (rec : ParagraphRecord) (h : process_paragraph p = some rec) :
    (rec.hints.is_bullet = false → rec.clean_text ≠ "") ∧
    (rec.clean_text = "" → rec.hints.is_bullet = true) := by
  obtain ⟨hne, hrec⟩ := process_paragraph_inv p rec h
  subst hrec
  by_cases hbl : determine_bullet_level (xml_is_bullet p) (xml_bullet_level p) p.level ≥ 0
  · constructor
    · intro hb
      simp [hbl] at hb
    · intro _
      simp [hbl]
  · constructor
    · intro _
      simpa [hbl] using hne
    · intro hc
      simp [hbl] at hc
      exact absurd hc hne

theorem clean_text_nonempty_witness :
    process_paragraph plainPara = some plainParaRec ∧ plainParaRec.clean_text ≠ "" :=
  ⟨by decide,
   (clean_text_nonempty_unless_bullet_stripped plainPara plainParaRec (by decide)).1
     (by decide)⟩

/-- C5: the resolved `bullet_level` of a produced record follows the
documented priority — markup bullet present: extracted markup level, else the
structural indent level, else `0`; markup bullet absent: the structural
indent level when known, else `-1` — and `is_bullet` holds exactly when the
resolved level is nonnegative. -/
theorem bullet_level_resolution (p : Paragraph) (rec : ParagraphRecord)
    (h : process_paragraph p = some rec) :
    (∀ n, xml_is_bullet p = true → xml_bullet_level p = some n →
        rec.hints.bullet_level = n) ∧
    (∀ m, xml_is_bullet p = true → xml_bullet_level p = none → p.level = some m →
        rec.hints.bullet_level = m) ∧
    (xml_is_bullet p = true → xml_bullet_level p = none → p.level = none →
        rec.hints.bullet_level = 0) ∧
    (∀ m, xml_is_bullet p = false → p.level = some m →
        rec.hints.bullet_level = m) ∧
    (xml_is_bullet p = false → p.level = none →
        rec.hints.bullet_level = -1) ∧
    (rec.hints.is_bullet = true ↔ rec.hints.bullet_level ≥ 0) := by
  obtain ⟨hne, hrec⟩ := process_paragraph_inv p rec h
  subst hrec
  refine ⟨?_, ?_, ?_, ?_, ?_, ?_⟩
  · intro n hb hx
    simp [determine_bullet_level, hb, hx]
  · intro m hb hx hl
    simp [determine_bullet_level, hb, hx, hl]
  · intro hb hx hl
    simp [determine_bullet_level, hb, hx, hl]
  · intro m hb hl
    simp [determine_bullet_level, hb, hl]
  · intro hb hl
    simp [determine_bullet_level, hb, hl]
  · simp

theorem bullet_level_resolution_witness :
    process_paragraph bulletItemPara = some bulletItemRec ∧
    bulletItemRec.hints.bullet_level = 0 ∧ bulletItemRec.clean_text = "Item one" ∧
    bulletItemRec.hints.is_bullet = true :=
  ⟨by decide,
   (bullet_level_resolution bulletItemPara bulletItemRec (by decide)).2.2.1
     (by decide) (by decide) rfl,
   by decide, by decide⟩

/-- C10: a paragraph with non-whitespace text and an empty run list produces
exactly one formatted run carrying the record's own `clean_text`, with no
bold, no italic and no hyperlink. -/
theorem empty_runs_single_formatted_run (p : Paragraph) (rec : ParagraphRecord)
    (hruns : p.runs = []) (h : process_paragraph p = some rec) :
    rec.formatted_runs =
      [{ text := rec.clean_text, bold := false, italic := false, hyperlink := none }] := by
  obtain ⟨hne, hrec⟩ := process_paragraph_inv p rec h
  subst hrec
  simp [extract_runs_with_formatting, hruns]

theorem empty_runs_single_formatted_run_witness :
    process_paragraph noRunsPara = some noRunsRec ∧
    noRunsRec.formatted_runs =
      [{ text := noRunsRec.clean_text, bold := false, italic := false, hyperlink := none }] :=
  ⟨by decide, empty_runs_single_formatted_run noRunsPara noRunsRec rfl (by decide)⟩

/-- C6: when every contributing run (all with non-empty text) agrees on
formatting, the whole clean text is wrapped once — triple emphasis for
bold+italic, double for bold, single for italic — and when every run shares
one identical hyperlink, the emphasis wrapping is applied first and the whole
result becomes a single markdown link to that URL. -/
theorem run_formatting_merge (runs : List FormattedRun) (clean : String)
    (h1 : runs ≠ []) (h2 : ∀ r ∈ runs, r.text ≠ "") :
    ((∀ r ∈ runs, r.hyperlink = none) →
      ((∀ r ∈ runs, r.bold = true) → (∀ r ∈ runs, r.italic = true) →
        build_formatted_text_from_runs runs clean = "***" ++ clean ++ "***") ∧
      ((∀ r ∈ runs, r.bold = true) → ¬(∀ r ∈ runs, r.italic = true) →
        build_formatted_text_from_runs runs clean = "**" ++ clean ++ "**") ∧
      (¬(∀ r ∈ runs, r.bold = true) → (∀ r ∈ runs, r.italic = true) →
        build_formatted_text_from_runs runs clean = "*" ++ clean ++ "*")) ∧
    (∀ u, u ≠ "" → (∀ r ∈ runs, r.hyperlink = some u) →
      build_formatted_text_from_runs runs clean =
        (if runs.all (·.bold) && runs.all (·.italic) then
          "[***" ++ clean ++ "***](" ++ u ++ ")"
         else if runs.all (·.bold) then "[**" ++ clean ++ "**](" ++ u ++ ")"
         else if runs.all (·.italic) then "[*" ++ clean ++ "*](" ++ u ++ ")"
         else "[" ++ clean ++ "](" ++ u ++ ")")) := by
  have hfilter : (runs.filter fun r => r.text ≠ "") = runs :=
    List.filter_eq_self.mpr fun a ha => decide_eq_true (h2 a ha)
  constructor
  · intro hnl
    have hhave : (runs.all fun r => hyTruthy r.hyperlink) = false := by
      obtain ⟨a, ha⟩ := List.exists_mem_of_ne_nil runs h1
      refine List.all_eq_false.mpr ⟨a, ha, ?_⟩
      rw [hnl a ha]
      simp [hyTruthy]
    refine ⟨?_, ?_, ?_⟩
    · intro hb hi
      have hab : runs.all (·.bold) = true := List.all_eq_true.mpr hb
      have hai : runs.all (·.italic) = true := List.all_eq_true.mpr hi
      rw [build_formatted_text_from_runs]
      rw [if_neg h1, hfilter, if_neg h1]
      simp only [hab, hai, hhave, Bool.false_and, Bool.not_false, Bool.and_true,
        Bool.true_and, if_pos]
    · intro hb hni
      have hab : runs.all (·.bold) = true := List.all_eq_true.mpr hb
      have hai : runs.all (·.italic) = false := by
        cases hx : runs.all (·.italic) with
        | true => exact absurd (fun r hr => List.all_eq_true.mp hx r hr) hni
        | false => rfl
      rw [build_formatted_text_from_runs]
      rw [if_neg h1, hfilter, if_neg h1]
      simp only [hab, hai, hhave, Bool.false_and, Bool.not_false, Bool.and_true,
        Bool.true_and, Bool.and_false, Bool.false_and, if_neg, if_pos,
        Bool.false_eq_true, if_false]
    · intro hnb hi
      have hab : runs.all (·.bold) = false := by
        cases hx : runs.all (·.bold) with
        | true => exact absurd (fun r hr => List.all_eq_true.mp hx r hr) hnb
        | false => rfl
      have hai : runs.all (·.italic) = true := List.all_eq_true.mpr hi
      rw [build_formatted_text_from_runs]
      rw [if_neg h1, hfilter, if_neg h1]
      simp [hab, hai, hhave]
  · intro u hu hlink
    rw [build_formatted_text_from_runs]
    rw [if_neg h1, hfilter, if_neg h1]
    have hhave : (runs.all fun r => hyTruthy r.hyperlink) = true := by
      refine List.all_eq_true.mpr fun r hr => ?_
      rw [hlink r hr]
      simpa [hyTruthy] using hu
    obtain ⟨r0, rest, rfl⟩ : ∃ r0 rest, runs = r0 :: rest := by
      cases runs with
      | nil => exact absurd rfl h1
      | cons a as => exact ⟨a, as, rfl⟩
    have hsame : (rest.all fun r => r.hyperlink == r0.hyperlink) = true := by
      refine List.all_eq_true.mpr fun r hr => ?_
      rw [hlink r (List.mem_cons_of_mem _ hr), hlink r0 (List.mem_cons_self _ _)]
      simp
    have hget : r0.hyperlink.getD "" = u := by
      rw [hlink r0 (List.mem_cons_self _ _)]
      rfl
    simp only [hhave, hsame, Bool.true_and, Bool.and_true, Bool.not_true,
      Bool.and_false, Bool.false_eq_true, if_false, if_true, hget]

theorem run_formatting_merge_witness :
    build_formatted_text_from_runs helloWorldRuns "Hello World" = "**Hello World**" := by
  have h :=
    ((run_formatting_merge helloWorldRuns "Hello World" (by decide)
        (by decide)).1 (by decide)).2.1 (by decide) (by decide)
  rw [h]
  rfl

/-- C1 (amended): the semantic order is exactly title-bucket ++
content-bucket ++ other-bucket, each bucket a filter of the deduplicated
document order (so within-bucket relative order is preserved); every
deduplicated shape appears in exactly one bucket of the output unless its
branch role is `slide_number`, in which case it is dropped from the output
altogether. -/
theorem bucketed_order_partition (slide : Slide) :
    (get_semantic_accessibility_order slide).1 =
      (deduplicated_document_order slide).filter
          (fun s => classify_bucket s = "title") ++
        (deduplicated_document_order slide).filter
          (fun s => classify_bucket s = "content") ++
        (deduplicated_document_order slide).filter
          (fun s => classify_bucket s = "other") ∧
    ∀ s ∈ deduplicated_document_order slide,
      (classify_bucket s ≠ "slide_number" →
        (get_semantic_accessibility_order slide).1.countP
          (fun x => x.ident == s.ident) = 1) ∧
      (classify_bucket s = "slide_number" →
        (get_semantic_accessibility_order slide).1.countP
          (fun x => x.ident == s.ident) = 0) := by
  obtain ⟨hout, _⟩ := semantic_order_characterization slide
  refine ⟨hout, fun s hs => ?_⟩
  rw [hout]
  have hs' : s ∈ dedup_go []
      ((get_xml_document_order_deduplicated slide).flatMap expand_if_group) := hs
  rw [List.countP_append, List.countP_append, List.countP_filter,
    List.countP_filter, List.countP_filter]
  have hdef : deduplicated_document_order slide =
      dedup_go [] ((get_xml_document_order_deduplicated slide).flatMap expand_if_group) :=
    rfl
  rw [hdef]
  rw [countP_dedup_go _ _ _ s hs', countP_dedup_go _ _ _ s hs',
    countP_dedup_go _ _ _ s hs']
  rcases classify_bucket_cases s with hcb | hcb | hcb | hcb <;> rw [hcb]
  · exact ⟨fun _ => by simp, fun h => by simp at h⟩
  · exact ⟨fun h => absurd rfl h, fun _ => by simp⟩
  · exact ⟨fun _ => by simp, fun h => by simp at h⟩
  · exact ⟨fun _ => by simp, fun h => by simp at h⟩

/-- C1 counterexample: the deduplicated document order holds one shape, yet
the semantic order's output is empty — a deduplicated shape that appears in
no bucket of the output, contradicting the claim that every deduplicated
shape lands in exactly one bucket. -/
theorem slide_number_shape_dropped :
    (deduplicated_document_order slideNumberSlide).length = 1 ∧
      (get_semantic_accessibility_order slideNumberSlide).1.length = 0 := by
  exact ⟨rfl, rfl⟩

theorem bucketed_order_partition_witness :
    (get_semantic_accessibility_order c1ContentSlide).1.countP
      (fun x => x.ident == c1ContentShape.ident) = 1 := by
  have hmem : c1ContentShape ∈ deduplicated_document_order c1ContentSlide := by
    have h : deduplicated_document_order c1ContentSlide = [c1ContentShape] := rfl
    rw [h]
    exact List.mem_cons_self _ _
  exact ((bucketed_order_partition c1ContentSlide).2 c1ContentShape hmem).1 (by decide)

/-- C2 (amended): a fault while reading the container markup is caught
inside the ordering step — no exception propagates — and only degrades the
*ordering source* to the deduplicated native shape collection; the resolver
then still group-expands, re-deduplicates and buckets that collection, so
its output is the bucketed order (title ++ content ++ other) with each
shape's role drawn from the bucketing classification map, not the document's
native order with fallback-classifier roles. -/
theorem markup_fault_degradation (st : ClassMap) (slide : Slide)
    (h : slide.sp_tree = SpTree.fault) :
    deduplicated_document_order slide =
      deduplicate_shapes_by_object_id
        ((deduplicate_shapes_by_object_id slide.shapes).flatMap expand_if_group) ∧
    (get_slide_reading_order true st slide).2 =
      ((deduplicated_document_order slide).filter
          (fun s => classify_bucket s = "title") ++
        (deduplicated_document_order slide).filter
          (fun s => classify_bucket s = "content") ++
        (deduplicated_document_order slide).filter
          (fun s => classify_bucket s = "other")).map
        fun s => (s, classify_bucket s) := by
  constructor
  · rw [deduplicated_document_order, get_xml_document_order_deduplicated, h]
  · obtain ⟨hout, hmap⟩ := semantic_order_characterization slide
    have hstep : (get_slide_reading_order true st slide).2 =
        (get_semantic_accessibility_order slide).1.map fun s =>
          (s, match class_lookup (get_semantic_accessibility_order slide).2 s.ident with
              | some role => role
              | none => get_semantic_role_from_xml s) := rfl
    rw [hstep, hout]
    refine List.map_congr_left fun a ha => ?_
    have hmem : a ∈ deduplicated_document_order slide := by
      rcases List.mem_append.mp ha with h' | h'
      · rcases List.mem_append.mp h' with h'' | h''
        · exact (List.mem_filter.mp h'').1
        · exact (List.mem_filter.mp h'').1
      · exact (List.mem_filter.mp h').1
    have hmem' : a ∈ dedup_go []
        ((get_xml_document_order_deduplicated slide).flatMap expand_if_group) := hmem
    have hlook := class_lookup_dedup_map classify_bucket []
      ((get_xml_document_order_deduplicated slide).flatMap expand_if_group) a hmem'
    rw [hmap]
    have hdef : deduplicated_document_order slide =
        dedup_go [] ((get_xml_document_order_deduplicated slide).flatMap expand_if_group) :=
      rfl
    rw [hdef, hlook]

/-- C2 counterexample: under a markup fault the resolver returns the
bucketed order with bucketing roles — the title-named shape first and the
subtitle-named shape classified "content" — not the document's native order
with roles from the per-shape fallback classifier, which would be
`[(1, "subtitle"), (2, "title")]`. -/
theorem markup_fault_not_native_order :
    c2FaultSlide.sp_tree = SpTree.fault ∧
    ((get_slide_reading_order true [] c2FaultSlide).2.map fun p => (p.1.ident, p.2)) =
      [(2, "title"), (1, "content")] ∧
    ((deduplicate_shapes_by_object_id c2FaultSlide.shapes).map
        fun s => (s.ident, get_semantic_role_from_xml s)) =
      [(1, "subtitle"), (2, "title")] ∧
    ((get_slide_reading_order true [] c2FaultSlide).2.map fun p => (p.1.ident, p.2)) ≠
      ((deduplicate_shapes_by_object_id c2FaultSlide.shapes).map
        fun s => (s.ident, get_semantic_role_from_xml s)) := by
  refine ⟨rfl, rfl, rfl, ?_⟩
  decide

theorem markup_fault_degradation_witness :
    c2wSlide.sp_tree = SpTree.fault ∧
    ((get_slide_reading_order true [] c2wSlide).2.map fun p => (p.1.ident, p.2)) =
      [(3, "content")] := by
  refine ⟨rfl, ?_⟩
  have h := (markup_fault_degradation [] c2wSlide rfl).2
  rw [h]
  rfl

/-- C4 (amended): the bucketing pass never records the subtitle role in the
classification map. A shape whose name contains "subtitle" is recorded as
"content" and placed in the content bucket whenever it qualifies as content
(unless its name also matches the earlier slide-number rule); a shape whose
name contains "sub-title" but not "subtitle" matches the title rule (its
name contains "title") and is recorded "title" in the title bucket. The
subtitle role can only come from the per-shape fallback classifier. -/
theorem bucketing_never_assigns_subtitle (slide : Slide) :
    (∀ pr ∈ (get_semantic_accessibility_order slide).2, pr.2 ≠ "subtitle") ∧
    (∀ s ∈ deduplicated_document_order slide,
      pyContains (pyLower s.name) "subtitle" = true →
      pyContains (pyLower s.name) "slide number" = false →
      (decide (shape_text_preview s ≠ "") || s.has_table || s.has_chart) = true →
      classify_bucket s = "content" ∧
        s ∈ (deduplicated_document_order slide).filter
          fun x => classify_bucket x = "content") ∧
    ∀ s ∈ deduplicated_document_order slide,
      pyContains (pyLower s.name) "sub-title" = true →
      pyContains (pyLower s.name) "subtitle" = false →
      classify_bucket s = "title" ∧
        s ∈ (deduplicated_document_order slide).filter
          fun x => classify_bucket x = "title" := by
  obtain ⟨_, hmap⟩ := semantic_order_characterization slide
  refine ⟨?_, ?_, ?_⟩
  · intro pr hpr
    rw [hmap] at hpr
    obtain ⟨s, _, rfl⟩ := List.mem_map.mp hpr
    exact classify_bucket_ne_subtitle s
  · intro s hs hsub hsn hcont
    have h1 : (pyContains (pyLower s.name) "title" &&
        !(pyContains (pyLower s.name) "subtitle")) = false := by
      rw [hsub]
      simp
    have hc : classify_bucket s = "content" := by
      rw [classify_bucket, if_neg (by rw [h1]; exact Bool.false_ne_true),
        if_neg (by rw [hsn]; exact Bool.false_ne_true), if_pos hcont]
    exact ⟨hc, List.mem_filter.mpr ⟨hs, by rw [hc]; exact decide_eq_true rfl⟩⟩
  · intro s hs hsub hnsub
    have htitle : pyContains (pyLower s.name) "title" = true := by
      have h1 : ("title".data <:+: "sub-title".data) := by decide
      have h2 : ("sub-title".data <:+: (pyLower s.name).data) :=
        of_decide_eq_true hsub
      exact decide_eq_true (h1.trans h2)
    have hcond : (pyContains (pyLower s.name) "title" &&
        !(pyContains (pyLower s.name) "subtitle")) = true := by
      rw [htitle, hnsub]
      rfl
    have hc : classify_bucket s = "title" := by
      rw [classify_bucket, if_pos hcond]
    exact ⟨hc, List.mem_filter.mpr ⟨hs, by rw [hc]; exact decide_eq_true rfl⟩⟩

/-- C4 counterexample: the bucketing pass records the subtitle-named shape
in the classification map with role "content", and the resolver's output
pairs it with "content" — not "subtitle" as the claim states. -/
theorem subtitle_named_shape_classified_content :
    (get_semantic_accessibility_order c4SubSlide).2 = [(1, "content")] ∧
    ((get_slide_reading_order true [] c4SubSlide).2.map fun p => (p.1.ident, p.2)) =
      [(1, "content")] := by
  exact ⟨rfl, rfl⟩

theorem bucketing_never_assigns_subtitle_witness :
    (classify_bucket c4wShape = "content" ∧
      c4wShape ∈ (deduplicated_document_order c4wSlide).filter
        fun x => classify_bucket x = "content") ∧
    (classify_bucket c4wSubTitleShape = "title" ∧
      c4wSubTitleShape ∈ (deduplicated_document_order c4wSubTitleSlide).filter
        fun x => classify_bucket x = "title") := by
  constructor
  · have hmem : c4wShape ∈ deduplicated_document_order c4wSlide := by
      have h : deduplicated_document_order c4wSlide = [c4wShape] := rfl
      rw [h]
      exact List.mem_cons_self _ _
    exact (bucketing_never_assigns_subtitle c4wSlide).2.1 c4wShape hmem (by decide)
      (by decide) (by decide)
  · have hmem : c4wSubTitleShape ∈ deduplicated_document_order c4wSubTitleSlide := by
      have h : deduplicated_document_order c4wSubTitleSlide = [c4wSubTitleShape] := rfl
      rw [h]
      exact List.mem_cons_self _ _
    exact (bucketing_never_assigns_subtitle c4wSubTitleSlide).2.2 c4wSubTitleShape hmem
      (by decide) (by decide)

/-- The semantic strategy reads roles from the classification map it has
just overwritten, so its result does not depend on the incoming cache. -/
theorem get_slide_reading_order_true_state_irrelevant (st1 st2 : ClassMap)
    (slide : Slide) :
    get_slide_reading_order true st1 slide = get_slide_reading_order true st2 slide :=
  rfl

/-- The simple strategy never writes the classification cache. -/
theorem get_slide_reading_order_false_state (st : ClassMap) (slide : Slide) :
    (get_slide_reading_order false st slide).1 = st :=
  rfl

theorem extract_slide_data_true_irrelevant (extract : Shape → String → Option Block)
    (st1 st2 : ClassMap) (slide : Slide) (n : Nat) :
    extract_slide_data extract true st1 slide n =
      extract_slide_data extract true st2 slide n :=
  rfl

/-- Under the semantic strategy the extracted slide data is independent of
the incoming resolver cache. -/
theorem extract_slides_true_output (extract : Shape → String → Option Block) :
    ∀ (slides : List Slide) (n : Nat) (st1 st2 : ClassMap),
      (extract_slides extract true st1 n slides).2 =
        (extract_slides extract true st2 n slides).2
  | [], _, _, _ => rfl
  | slide :: rest, n, st1, st2 => by
    simp only [extract_slides]
    rw [extract_slide_data_true_irrelevant extract st1 st2 slide n]

/-- Under the simple strategy the resolver cache passes through the slide
loop unchanged. -/
theorem extract_slides_false_state (extract : Shape → String → Option Block) :
    ∀ (slides : List Slide) (n : Nat) (st : ClassMap),
      (extract_slides extract false st n slides).1 = st
  | [], _, _ => rfl
  | slide :: rest, n, st => by
    simp only [extract_slides]
    have h1 : (extract_slide_data extract false st slide n).1 = st := rfl
    rw [h1]
    exact extract_slides_false_state extract rest (n + 1) st

/-- C8: converting the same parsed document twice with the same resolver
instance — the second run starting from the cache state the first run left
behind — produces identical markdown, for either strategy and any
shape-content extractor. -/
theorem conversion_deterministic (extract : Shape → String → Option Block)
    (flag : Bool) (st : ClassMap) (slides : List Slide) :
    (convert_pipeline extract flag
        ((convert_pipeline extract flag st slides).1) slides).2 =
      (convert_pipeline extract flag st slides).2 := by
  cases flag with
  | true =>
    simp only [convert_pipeline, extract_presentation_data]
    rw [extract_slides_true_output extract slides 1
      ((extract_slides extract true st 1 slides).1) st]
  | false =>
    have h : (convert_pipeline extract false st slides).1 = st := by
      simp only [convert_pipeline, extract_presentation_data]
      exact extract_slides_false_state extract slides 1 st
    rw [h]

end PPTX
